import Mathlib

/-!
Verification of the runtime firmware-control subsystem of the
murr2k/raspberry-pi-pico repository.

The embedding below translates the C sources into Lean:

* `examples/c/temperature_enhanced.c` (src/unnamed/part_002): telemetry
  aggregator (`record` block of `update_temperature_monitoring`,
  `add_temperature_to_history`, `display_temperature_stats`,
  `display_temperature_history`), the command dispatcher
  `process_temperature_commands`, and the line accumulator of
  `enhanced_temperature_command_loop`.
* `src/c/runtime_update.c` (quoted in full in src/VSCODE_SETUP.md):
  `runtime_process_command` and the bootloader transition handlers
  `runtime_enter_bootsel`, `runtime_reset_to_bootsel`, `runtime_soft_reset`,
  modelled as effect traces plus a returns/diverges flag.

Machine integers: `reading_count` is a C `uint32_t`, so its increment is
taken mod 2^32; `history_index` is a `uint8_t` whose every store is already
reduced mod `TEMP_HISTORY_SIZE` by the source.  C `float` values are
modelled as rationals: the claims under verification only involve order
comparisons and exact assignments, never rounding.
-/

/-- TEMP_HISTORY_SIZE in temperature_enhanced.c. -/
def TEMP_HISTORY_SIZE : Nat := 10

/-- DEFAULT_REPORT_INTERVAL_MS in temperature_enhanced.c. -/
def DEFAULT_REPORT_INTERVAL_MS : Nat := 2000

/-- The mutable application state of temperature_enhanced.c: the file-scope
statics `temp_monitoring_enabled`, `report_interval_ms`, `reading_count`,
`temperature_sum`, `min_temp`, `max_temp`, `temp_history`, `history_index`.
The history array is a total map from slot number to stored value; the C
code only ever indexes it with values already reduced mod 10. -/
structure TempState where
  temp_monitoring_enabled : Bool
  report_interval_ms : Nat
  reading_count : Nat
  temperature_sum : ℚ
  min_temp : ℚ
  max_temp : ℚ
  temp_history : Nat → ℚ
  history_index : Nat

/-- The initial values of the statics: monitoring on, interval 2000 ms,
no readings, `min_temp = 1000.0f`, `max_temp = -1000.0f`, history array
zero-initialized (C static storage), write index 0. -/
def initTempState : TempState :=
  { temp_monitoring_enabled := true
    report_interval_ms := DEFAULT_REPORT_INTERVAL_MS
    reading_count := 0
    temperature_sum := 0
    min_temp := 1000
    max_temp := -1000
    temp_history := fun _ => 0
    history_index := 0 }

/-- Embeds `add_temperature_to_history` (part_002 lines 88-91): store the
reading at the current write index, then advance the index mod 10. -/
def add_temperature_to_history (temp : ℚ) (s : TempState) : TempState :=
  { s with
    temp_history := Function.update s.temp_history s.history_index temp
    history_index := (s.history_index + 1) % TEMP_HISTORY_SIZE }

/-- Embeds the statistics-update block of `update_temperature_monitoring`
(part_002 lines 233-240): increment the reading count (uint32_t, hence
mod 2^32), accumulate the sum, tighten min and max, append to history.
The sensor read and the elapsed-interval time gate are outside the block;
the sampled temperature is the parameter. -/
def record_reading (temperature : ℚ) (s : TempState) : TempState :=
  add_temperature_to_history temperature
    { s with
      reading_count := (s.reading_count + 1) % 4294967296
      temperature_sum := s.temperature_sum + temperature
      min_temp := if temperature < s.min_temp then temperature else s.min_temp
      max_temp := if temperature > s.max_temp then temperature else s.max_temp }

/-- Embeds `update_temperature_monitoring` (part_002 lines 224-261) at an
iteration where the report interval has elapsed: an early return when
monitoring is disabled, otherwise the statistics update on the sampled
temperature.  Wall-clock timing and the printed report are not modelled. -/
def update_temperature_monitoring (temperature : ℚ) (s : TempState) : TempState :=
  if s.temp_monitoring_enabled then record_reading temperature s else s

/-- Record a whole sequence of readings, oldest first. -/
def recordAll (temps : List ℚ) (s : TempState) : TempState :=
  temps.foldl (fun acc t => record_reading t acc) s

/-- The fields printed by `display_temperature_stats` when readings exist. -/
structure StatsReport where
  readings : Nat
  current : ℚ
  average : ℚ
  maximum : ℚ
  minimum : ℚ
  interval : Nat
  monitoring : Bool
deriving DecidableEq

/-- Embeds `display_temperature_stats` (part_002 lines 96-112): with no
readings it prints only the no-readings message (`none`); otherwise the
mean `temperature_sum / reading_count` is computed and the report printed.
The `current` index `(history_index - 1 + TEMP_HISTORY_SIZE) %
TEMP_HISTORY_SIZE` is computed in C int arithmetic, hence over `Int`. -/
def display_temperature_stats (s : TempState) : Option StatsReport :=
  if s.reading_count = 0 then none
  else some
    { readings := s.reading_count
      current := s.temp_history (((s.history_index : Int) - 1 + 10) % 10).toNat
      average := s.temperature_sum / (s.reading_count : ℚ)
      maximum := s.max_temp
      minimum := s.min_temp
      interval := s.report_interval_ms
      monitoring := s.temp_monitoring_enabled }

/-- Embeds `display_temperature_history` (part_002 lines 117-125): for
`i = 0..9` compute `idx = (history_index - TEMP_HISTORY_SIZE + i +
TEMP_HISTORY_SIZE) % TEMP_HISTORY_SIZE` (C int arithmetic) and print
`temp_history[idx]` when `reading_count > i`.  The result is the list of
printed values in print order. -/
def display_temperature_history (s : TempState) : List ℚ :=
  (List.range 10).filterMap (fun i =>
    if i < s.reading_count then
      some (s.temp_history (((s.history_index : Int) - 10 + (i : Int) + 10) % 10).toNat)
    else none)

example : (record_reading 25 initTempState).reading_count = 1 := by decide
example : (record_reading 25 initTempState).min_temp = 25 := by decide
example : display_temperature_history (recordAll [20, 21, 22] initTempState) = [0, 0, 0] := by
  decide

/-- Hardware and stdio side effects issued by runtime_update.c, in program
order.  `romResetUsbBoot` is the `rom_reset_usb_boot(0, 0)` ROM call and
`watchdogEnable` is `watchdog_enable(delay, pause_on_debug)`; these two are
the irreversible reset primitives. -/
inductive HwAction where
  | printMsg
  | stdioFlush
  | resetUsbBlock
  | unresetUsbBlockWait
  | romResetUsbBoot
  | watchdogCtrlClear
  | scratchWrite (idx val : Nat)
  | watchdogEnable (delayMs : Nat) (pauseOnDebug : Bool)
  | stdioUsbDeinit
deriving DecidableEq

/-- The observable outcome of a runtime_update.c handler: its side effects
in order, and whether control returns to the caller.  `returns = false`
models a handler that ends in `while (1) tight_loop_contents();`. -/
structure RuntimeResult where
  trace : List HwAction
  returns : Bool
deriving DecidableEq

/-- WATCHDOG_RESET_DELAY_MS in runtime_update.c. -/
def WATCHDOG_RESET_DELAY_MS : Nat := 100

/-- Embeds `runtime_enter_bootsel` (runtime_update.c): print, flush stdio,
reset and unreset the USB block, call `rom_reset_usb_boot(0, 0)`, and if
that ever returns, spin forever. -/
def runtime_enter_bootsel : RuntimeResult :=
  { trace := [.printMsg, .stdioFlush, .resetUsbBlock, .unresetUsbBlockWait, .romResetUsbBoot]
    returns := false }

/-- Embeds `runtime_reset_to_bootsel` (runtime_update.c): print, flush,
disable the watchdog control bit, write the BOOTSEL magic `0xb007c0d3`
and GPIO parameters into scratch registers 4-7, arm the watchdog with a
100 ms timeout, then spin forever. -/
def runtime_reset_to_bootsel : RuntimeResult :=
  { trace := [.printMsg, .stdioFlush, .watchdogCtrlClear,
              .scratchWrite 4 0xb007c0d3, .scratchWrite 5 0,
              .scratchWrite 6 0, .scratchWrite 7 0,
              .watchdogEnable WATCHDOG_RESET_DELAY_MS true]
    returns := false }

/-- Embeds `runtime_soft_reset` (runtime_update.c): print, flush, arm the
watchdog with a 100 ms timeout (no scratch marker), then spin forever. -/
def runtime_soft_reset : RuntimeResult :=
  { trace := [.printMsg, .stdioFlush, .watchdogEnable WATCHDOG_RESET_DELAY_MS true]
    returns := false }

/-- Embeds `runtime_get_device_info` (runtime_update.c): prints device
information and returns. -/
def runtime_get_device_info : RuntimeResult :=
  { trace := [.printMsg], returns := true }

/-- Embeds `runtime_prepare_update` (runtime_update.c): print, flush,
deinitialize USB stdio, print, and return. -/
def runtime_prepare_update : RuntimeResult :=
  { trace := [.printMsg, .stdioFlush, .stdioUsbDeinit, .printMsg], returns := true }

/-- Embeds `runtime_process_command` (runtime_update.c): prefix matching
with `strncmp(command, KW, strlen(KW)) == 0` in source order, falling back
to an unknown-command report that lists the available commands. -/
def runtime_process_command (command : List Char) : RuntimeResult :=
  if List.isPrefixOf ['B', 'O', 'O', 'T', 'S', 'E', 'L'] command then
    runtime_enter_bootsel
  else if List.isPrefixOf ['R', 'E', 'S', 'E', 'T', '_', 'B', 'O', 'O', 'T', 'S', 'E', 'L'] command then
    runtime_reset_to_bootsel
  else if List.isPrefixOf ['R', 'E', 'S', 'E', 'T'] command then
    runtime_soft_reset
  else if List.isPrefixOf ['I', 'N', 'F', 'O'] command then
    runtime_get_device_info
  else if List.isPrefixOf ['P', 'R', 'E', 'P', 'A', 'R', 'E'] command then
    runtime_prepare_update
  else
    { trace := [.printMsg], returns := true }

/-- True of the irreversible reset primitives. -/
def isCommitAction : HwAction → Bool
  | .romResetUsbBoot => true
  | .watchdogEnable _ _ => true
  | _ => false

/-- Checks that every irreversible reset primitive in the trace is preceded
by an earlier `stdioFlush`; the accumulator records whether a flush has
been seen so far. -/
def flushedBeforeCommits (seenFlush : Bool) : List HwAction → Bool
  | [] => true
  | a :: rest =>
      if isCommitAction a then
        seenFlush && flushedBeforeCommits seenFlush rest
      else
        flushedBeforeCommits (seenFlush || decide (a = HwAction.stdioFlush)) rest

example : flushedBeforeCommits false runtime_enter_bootsel.trace = true := by decide
example : flushedBeforeCommits false runtime_reset_to_bootsel.trace = true := by decide
example : runtime_soft_reset.trace.any isCommitAction = true := by decide

/-- True of the characters C `isspace` accepts (the whitespace `atoi`
skips before the number). -/
def isSpaceByte (c : Char) : Bool :=
  c = ' ' || c = '\t' || c = '\n' || c = '\x0b' || c = '\x0c' || c = '\r'

/-- True of the ASCII decimal digits `0`..`9`. -/
def isDigitByte (c : Char) : Bool :=
  48 ≤ c.toNat && c.toNat ≤ 57

/-- Value of the maximal leading run of decimal digits, most significant
digit first; an empty run has value 0, as in C `atoi`. -/
def digitsVal (s : List Char) : Nat :=
  (s.takeWhile isDigitByte).foldl (fun a c => 10 * a + (c.toNat - 48)) 0

/-- Embeds C `atoi` as used on the INTERVAL argument: skip leading
whitespace, accept an optional sign, convert the maximal run of digits
(none converts to 0); conversion stops at the first non-digit. -/
def atoi (s : List Char) : Int :=
  match s.dropWhile isSpaceByte with
  | [] => 0
  | c :: rest =>
      if c = '-' then -(digitsVal rest : Int)
      else if c = '+' then (digitsVal rest : Int)
      else (digitsVal (c :: rest) : Int)

/-- Conversion of the (possibly negative) `atoi` result to the C
`uint32_t` local `new_interval`: reduction mod 2^32. -/
def toUInt32Nat (i : Int) : Nat :=
  (i % 4294967296).toNat

example : atoi ['a', 'b', 'c'] = 0 := by decide
example : atoi ['1', '0', '0', '0'] = 1000 := by decide
example : atoi [' ', '-', '5'] = -5 := by decide
example : toUInt32Nat (-5) = 4294967291 := by decide

/-- The textual response family emitted by `process_temperature_commands`;
each constructor is one printf site (or group) of the source, carrying the
data the source interpolates. -/
inductive Response where
  | currentTemp
  | statsReport (r : Option StatsReport)
  | historyReport (l : List ℚ)
  | monitoringEnabled
  | monitoringDisabled
  | statsReset
  | intervalSet (ms : Nat)
  | intervalInvalid
  | intervalShow (ms : Nat)
  | helpText
  | runtime (r : RuntimeResult)
deriving DecidableEq

/-- Embeds `process_temperature_commands` (part_002 lines 130-198):
`strncmp(command, KW, strlen(KW)) == 0` prefix tests in source order.
The TEMP branch reads and prints the sensor without touching state; the
INTERVAL branch parses `command + 9` with `atoi` when the command is
longer than 9 bytes and accepts values in [500, 60000]; unmatched
commands fall through to `runtime_process_command`. -/
def process_temperature_commands (command : List Char) (s : TempState) :
    TempState × Response :=
  if List.isPrefixOf ['T', 'E', 'M', 'P'] command then
    (s, .currentTemp)
  else if List.isPrefixOf ['S', 'T', 'A', 'T', 'S'] command then
    (s, .statsReport (display_temperature_stats s))
  else if List.isPrefixOf ['H', 'I', 'S', 'T', 'O', 'R', 'Y'] command then
    (s, .historyReport (display_temperature_history s))
  else if List.isPrefixOf ['S', 'T', 'A', 'R', 'T', '_', 'T', 'E', 'M', 'P'] command then
    ({ s with temp_monitoring_enabled := true }, .monitoringEnabled)
  else if List.isPrefixOf ['S', 'T', 'O', 'P', '_', 'T', 'E', 'M', 'P'] command then
    ({ s with temp_monitoring_enabled := false }, .monitoringDisabled)
  else if List.isPrefixOf ['R', 'E', 'S', 'E', 'T', '_', 'S', 'T', 'A', 'T', 'S'] command then
    ({ s with reading_count := 0, temperature_sum := 0,
              min_temp := 1000, max_temp := -1000, history_index := 0 },
     .statsReset)
  else if List.isPrefixOf ['I', 'N', 'T', 'E', 'R', 'V', 'A', 'L'] command then
    if command.length > 9 then
      let new_interval := toUInt32Nat (atoi (command.drop 9))
      if 500 ≤ new_interval ∧ new_interval ≤ 60000 then
        ({ s with report_interval_ms := new_interval }, .intervalSet new_interval)
      else
        (s, .intervalInvalid)
    else
      (s, .intervalShow s.report_interval_ms)
  else if List.isPrefixOf ['H', 'E', 'L', 'P'] command then
    (s, .helpText)
  else
    (s, .runtime (runtime_process_command command))

example :
    (process_temperature_commands ['I', 'N', 'T', 'E', 'R', 'V', 'A', 'L', ' ', '1']
      initTempState).2 = Response.intervalInvalid := by decide
example :
    (process_temperature_commands ['I', 'N', 'T', 'E', 'R', 'V', 'A', 'L', ' ', '1', '0', '0', '0']
      initTempState).1.report_interval_ms = 1000 := by decide
example :
    (process_temperature_commands ['B', 'O', 'O', 'T', 'S', 'E', 'L'] initTempState).2
      = Response.runtime runtime_enter_bootsel := by decide
example :
    (process_temperature_commands ['R', 'E', 'S', 'E', 'T', '_', 'S', 'T', 'A', 'T', 'S']
      initTempState).2 = Response.statsReset := by decide

/-- True of the line-terminator bytes `\n` and `\r`. -/
def isTerminator (c : Char) : Bool :=
  c = '\n' || c = '\r'

/-- Embeds one iteration of the line accumulator shared by
`enhanced_temperature_command_loop` (part_002 lines 203-219) and
`enhanced_command_loop` (blink_led_enhanced.c lines 103-119), for an
iteration in which a byte is available.  The buffer is the 64-byte
`command_buffer` with `buffer_pos` its filled length: a terminator on a
non-empty buffer writes the NUL at `buffer_pos` (at most 63, in bounds)
and dispatches the buffered line; a terminator on an empty buffer does
nothing; any other byte is appended when `buffer_pos < sizeof(buffer) - 1
= 63` and silently dropped otherwise. -/
def enhanced_temperature_command_loop_step (c : Char) (buf : List Char) :
    List Char × Option (List Char) :=
  if isTerminator c then
    if buf.length > 0 then ([], some buf) else (buf, none)
  else if buf.length < 63 then
    (buf ++ [c], none)
  else
    (buf, none)

/-- Feed a byte sequence one byte per loop iteration, collecting the
dispatched command lines in order; returns the final buffer contents and
the dispatched lines. -/
def enhanced_temperature_command_loop_run (bytes : List Char) (buf : List Char) :
    List Char × List (List Char) :=
  match bytes with
  | [] => (buf, [])
  | c :: rest =>
      let step := enhanced_temperature_command_loop_step c buf
      let tail := enhanced_temperature_command_loop_run rest step.1
      (tail.1, step.2.toList ++ tail.2)

/-- The segments of the byte stream strictly between terminator bytes that
are completed by a terminator (the trailing unterminated segment is not
included); the first argument accumulates the segment currently open. -/
def completedSegmentsFrom (seg : List Char) : List Char → List (List Char)
  | [] => []
  | c :: rest =>
      if isTerminator c then seg :: completedSegmentsFrom [] rest
      else completedSegmentsFrom (seg ++ [c]) rest

/-- The terminator-completed segments of a byte stream. -/
def completedSegments (bytes : List Char) : List (List Char) :=
  completedSegmentsFrom [] bytes

example :
    (enhanced_temperature_command_loop_run
      ['T', 'E', 'M', 'P', '\n', '\r', 'X', '\r'] []).2 =
      [['T', 'E', 'M', 'P'], ['X']] := by decide
example :
    completedSegments ['T', 'E', 'M', 'P', '\n', '\r', 'X', '\r'] =
      [['T', 'E', 'M', 'P'], [], ['X']] := by decide

/-- An event of the main loop that can mutate the telemetry state: a
sensor sample arriving at an iteration where the report interval has
elapsed (`update_temperature_monitoring`), or a completed command line
handed to `process_temperature_commands`. -/
inductive MainLoopEvent where
  | sample (t : ℚ)
  | cmd (c : List Char)

/-- Run a sequence of main-loop events from a state, together with the
list of readings actually recorded since the last statistics reset: a
sample appends its reading exactly when monitoring is enabled, and the
RESET_STATS command (the `statsReset` response) clears the list. -/
def runEvents : List MainLoopEvent → TempState × List ℚ → TempState × List ℚ
  | [], p => p
  | e :: es, (s, acc) =>
      runEvents es
        (match e with
         | .sample t =>
             (update_temperature_monitoring t s,
              if s.temp_monitoring_enabled then acc ++ [t] else acc)
         | .cmd c =>
             let r := process_temperature_commands c s
             (r.1, if r.2 = Response.statsReset then [] else acc))

/-- The ten history slots read in the oldest-to-newest display order used
by `display_temperature_history`: slot `(history_index + i) % 10` for
`i = 0..9`. -/
def windowList (s : TempState) : List ℚ :=
  (List.range 10).map (fun i => s.temp_history ((s.history_index + i) % 10))

/-- Projection of `record_reading` on the reading count. -/
lemma record_reading_count (t : ℚ) (s : TempState) :
    (record_reading t s).reading_count = (s.reading_count + 1) % 4294967296 := rfl

/-- Projection of `record_reading` on the minimum. -/
lemma record_reading_min (t : ℚ) (s : TempState) :
    (record_reading t s).min_temp = if t < s.min_temp then t else s.min_temp := rfl

/-- Projection of `record_reading` on the maximum. -/
lemma record_reading_max (t : ℚ) (s : TempState) :
    (record_reading t s).max_temp = if t > s.max_temp then t else s.max_temp := rfl

/-- C7 counterexample: from the fresh state, a single record of the
reading 1500 (above the 1000 sentinel) leaves `min_temp` at the 1000
sentinel rather than at the reading, refuting `min == max == reading`
for every reading value. -/
theorem C7_counterexample_first_record_beyond_sentinel :
    initTempState.reading_count = 0 ∧
    (record_reading 1500 initTempState).reading_count = 1 ∧
    (record_reading 1500 initTempState).max_temp = 1500 ∧
    (record_reading 1500 initTempState).min_temp = 1000 ∧
    (record_reading 1500 initTempState).min_temp ≠ 1500 := by
  decide

/-- C7 amended: restricted to readings within the sentinel range
[-1000, 1000], the first record after start or reset yields
`count == 1` and `min == max == reading`; and once `min <= max` holds
(as it does whenever at least one reading is recorded), a reading
strictly below the minimum updates only the minimum, and a reading
strictly above the maximum updates only the maximum. -/
theorem C7_amended_record_min_max :
    (∀ (r : ℚ) (s : TempState),
      s.reading_count = 0 → s.min_temp = 1000 → s.max_temp = -1000 →
      -1000 ≤ r → r ≤ 1000 →
      (record_reading r s).reading_count = 1 ∧
      (record_reading r s).min_temp = r ∧
      (record_reading r s).max_temp = r) ∧
    (∀ (t : ℚ) (s : TempState),
      s.min_temp ≤ s.max_temp → t < s.min_temp →
      (record_reading t s).min_temp = t ∧
      (record_reading t s).max_temp = s.max_temp) ∧
    (∀ (t : ℚ) (s : TempState),
      s.min_temp ≤ s.max_temp → t > s.max_temp →
      (record_reading t s).max_temp = t ∧
      (record_reading t s).min_temp = s.min_temp) := by
  refine ⟨?_, ?_, ?_⟩
  · intro r s hc hmin hmax hge hle
    refine ⟨?_, ?_, ?_⟩
    · rw [record_reading_count, hc]
    · rw [record_reading_min, hmin]
      split_ifs with h
      · rfl
      · linarith
    · rw [record_reading_max, hmax]
      split_ifs with h
      · rfl
      · linarith
  · intro t s hms hlt
    refine ⟨?_, ?_⟩
    · rw [record_reading_min, if_pos hlt]
    · rw [record_reading_max, if_neg (by simp only [gt_iff_lt, not_lt]; linarith)]
  · intro t s hms hgt
    refine ⟨?_, ?_⟩
    · rw [record_reading_max, if_pos hgt]
    · rw [record_reading_min, if_neg (by simp only [not_lt]; linarith)]

/-- Witness for the amended C7: first record of 25 from the fresh state,
then 20 (below the minimum) and 30 (above the maximum). -/
theorem C7_amended_record_min_max_witness :
    (initTempState.reading_count = 0 ∧ initTempState.min_temp = 1000 ∧
      initTempState.max_temp = -1000 ∧ (-1000 : ℚ) ≤ 25 ∧ (25 : ℚ) ≤ 1000 ∧
      (record_reading 25 initTempState).reading_count = 1 ∧
      (record_reading 25 initTempState).min_temp = 25 ∧
      (record_reading 25 initTempState).max_temp = 25) ∧
    ((record_reading 25 initTempState).min_temp ≤
        (record_reading 25 initTempState).max_temp ∧
      (20 : ℚ) < (record_reading 25 initTempState).min_temp ∧
      (record_reading 20 (record_reading 25 initTempState)).min_temp = 20 ∧
      (record_reading 20 (record_reading 25 initTempState)).max_temp =
        (record_reading 25 initTempState).max_temp) ∧
    ((30 : ℚ) > (record_reading 25 initTempState).max_temp ∧
      (record_reading 30 (record_reading 25 initTempState)).max_temp = 30 ∧
      (record_reading 30 (record_reading 25 initTempState)).min_temp =
        (record_reading 25 initTempState).min_temp) := by
  have h1 := C7_amended_record_min_max.1 25 initTempState rfl rfl rfl
    (by norm_num) (by norm_num)
  have h2 := C7_amended_record_min_max.2.1 20 (record_reading 25 initTempState)
    (by decide) (by decide)
  have h3 := C7_amended_record_min_max.2.2 30 (record_reading 25 initTempState)
    (by decide) (by decide)
  exact ⟨⟨rfl, rfl, rfl, by norm_num, by norm_num, h1.1, h1.2.1, h1.2.2⟩,
         ⟨by decide, by decide, h2.1, h2.2⟩,
         ⟨by decide, h3.1, h3.2⟩⟩

/-- The dispatched lines of the accumulator, fed from a buffer holding the
truncation of the currently open segment, are the capacity-truncated
nonempty completed segments of the remaining bytes (the open segment
included). -/
lemma loop_run_spec :
    ∀ (bytes seg : List Char),
      (enhanced_temperature_command_loop_run bytes (seg.take 63)).2 =
        ((completedSegmentsFrom seg bytes).filter (fun l => !l.isEmpty)).map
          (fun l => l.take 63) := by
  intro bytes
  induction bytes with
  | nil => intro seg; rfl
  | cons c rest ih =>
      intro seg
      simp only [enhanced_temperature_command_loop_run, completedSegmentsFrom]
      by_cases hterm : isTerminator c = true
      · simp only [enhanced_temperature_command_loop_step, hterm, if_true]
        by_cases hseg : seg = []
        · subst hseg
          simp only [List.take_nil, List.length_nil, gt_iff_lt, Nat.lt_irrefl, if_false,
            Option.toList_none, List.nil_append, List.filter_cons]
          have he : (!(List.isEmpty ([] : List Char))) = false := by decide
          rw [he]
          simpa using ih []
        · have hpos : (seg.take 63).length > 0 := by
            have h0 : 0 < seg.length := List.length_pos.mpr hseg
            rw [List.length_take]
            omega
          rw [if_pos hpos]
          have he : (!seg.isEmpty) = true := by
            cases seg with
            | nil => exact absurd rfl hseg
            | cons a l => rfl
          simp only [Option.toList_some, List.filter_cons, he, if_true, List.map_cons,
            List.singleton_append]
          have := ih []
          simp only [List.take_nil] at this
          rw [this]
      · simp only [enhanced_temperature_command_loop_step, hterm, if_false,
          Bool.false_eq_true]
        by_cases hlen : seg.length < 63
        · have hb : (seg.take 63).length < 63 := by
            rw [List.length_take]
            omega
          rw [if_pos hb]
          have hext : seg.take 63 ++ [c] = (seg ++ [c]).take 63 := by
            rw [List.take_of_length_le (by omega),
              List.take_of_length_le (by simp; omega)]
          rw [hext]
          simpa using ih (seg ++ [c])
        · have hb : ¬ (seg.take 63).length < 63 := by
            rw [List.length_take]
            omega
          rw [if_neg hb]
          have hext : seg.take 63 = (seg ++ [c]).take 63 := by
            rw [List.take_append_of_le_length (by omega)]
          rw [hext]
          simpa using ih (seg ++ [c])

/-- C6: the lines dispatched by the accumulator on any byte sequence are
exactly the nonempty terminator-completed segments, each truncated to the
63-character capacity, in order; in particular the number of dispatched
lines equals the number of nonempty completed segments: a terminator on
an empty buffer dispatches nothing and an over-long segment still
dispatches exactly one truncated line. -/
theorem C6_line_accumulator_dispatch :
    ∀ bytes : List Char,
      (enhanced_temperature_command_loop_run bytes []).2 =
        ((completedSegments bytes).filter (fun l => !l.isEmpty)).map
          (fun l => l.take 63) ∧
      (enhanced_temperature_command_loop_run bytes []).2.length =
        ((completedSegments bytes).filter (fun l => !l.isEmpty)).length := by
  intro bytes
  have h := loop_run_spec bytes []
  simp only [List.take_nil] at h
  exact ⟨h, by rw [h, List.length_map]; rfl⟩

/-- The accumulator buffer never exceeds 63 characters and every
dispatched line is at most 63 characters long. -/
lemma loop_run_bounds :
    ∀ (bytes buf : List Char), buf.length ≤ 63 →
      (enhanced_temperature_command_loop_run bytes buf).1.length ≤ 63 ∧
      ∀ l ∈ (enhanced_temperature_command_loop_run bytes buf).2, l.length ≤ 63 := by
  intro bytes
  induction bytes with
  | nil =>
      intro buf h
      exact ⟨h, fun l hl => absurd hl (List.not_mem_nil l)⟩
  | cons c rest ih =>
      intro buf h
      simp only [enhanced_temperature_command_loop_run]
      by_cases hterm : isTerminator c = true
      · simp only [enhanced_temperature_command_loop_step, hterm, if_true]
        by_cases hpos : buf.length > 0
        · rw [if_pos hpos]
          obtain ⟨h1, h2⟩ := ih [] (by norm_num)
          refine ⟨h1, ?_⟩
          intro l hl
          simp only [Option.toList_some, List.singleton_append, List.mem_cons] at hl
          rcases hl with rfl | hl
          · exact h
          · exact h2 l hl
        · rw [if_neg hpos]
          obtain ⟨h1, h2⟩ := ih buf h
          exact ⟨h1, fun l hl => h2 l (by simpa using hl)⟩
      · simp only [enhanced_temperature_command_loop_step, hterm, if_false,
          Bool.false_eq_true]
        by_cases hlen : buf.length < 63
        · rw [if_pos hlen]
          obtain ⟨h1, h2⟩ := ih (buf ++ [c]) (by simp; omega)
          exact ⟨h1, fun l hl => h2 l (by simpa using hl)⟩
        · rw [if_neg hlen]
          obtain ⟨h1, h2⟩ := ih buf h
          exact ⟨h1, fun l hl => h2 l (by simpa using hl)⟩

/-- C10: starting from the empty buffer, after any byte sequence the
buffer holds at most 63 command characters (so the terminating NUL index
`buffer_pos` stays within the 64-byte array) and every dispatched command
string has length at most 63. -/
theorem C10_buffer_and_line_bounds :
    ∀ bytes : List Char,
      (enhanced_temperature_command_loop_run bytes []).1.length ≤ 63 ∧
      ∀ l ∈ (enhanced_temperature_command_loop_run bytes []).2, l.length ≤ 63 := by
  intro bytes
  exact loop_run_bounds bytes [] (by norm_num)

/-- Witness for C10 on the concrete input `STATUS\n`: the final buffer is
within bounds and the single dispatched line is six characters. -/
theorem C10_buffer_and_line_bounds_witness :
    (enhanced_temperature_command_loop_run
        ['S', 'T', 'A', 'T', 'U', 'S', '\n'] []).1.length ≤ 63 ∧
    ['S', 'T', 'A', 'T', 'U', 'S'] ∈
      (enhanced_temperature_command_loop_run
        ['S', 'T', 'A', 'T', 'U', 'S', '\n'] []).2 ∧
    (['S', 'T', 'A', 'T', 'U', 'S'] : List Char).length ≤ 63 :=
  ⟨(C10_buffer_and_line_bounds ['S', 'T', 'A', 'T', 'U', 'S', '\n']).1,
   by decide,
   (C10_buffer_and_line_bounds ['S', 'T', 'A', 'T', 'U', 'S', '\n']).2
     ['S', 'T', 'A', 'T', 'U', 'S'] (by decide)⟩


/-- Recording can only lower the minimum. -/
lemma record_reading_min_le_self (t : ℚ) (s : TempState) :
    (record_reading t s).min_temp ≤ s.min_temp := by
  rw [record_reading_min]
  split_ifs with h
  · linarith
  · exact le_refl _

/-- The minimum after recording is at most the recorded reading. -/
lemma record_reading_min_le_reading (t : ℚ) (s : TempState) :
    (record_reading t s).min_temp ≤ t := by
  rw [record_reading_min]
  split_ifs with h
  · exact le_refl _
  · linarith

/-- Recording can only raise the maximum. -/
lemma record_reading_le_max_self (t : ℚ) (s : TempState) :
    s.max_temp ≤ (record_reading t s).max_temp := by
  rw [record_reading_max]
  split_ifs with h
  · linarith
  · exact le_refl _

/-- The recorded reading is at most the maximum after recording. -/
lemma record_reading_le_max_reading (t : ℚ) (s : TempState) :
    t ≤ (record_reading t s).max_temp := by
  rw [record_reading_max]
  split_ifs with h
  · exact le_refl _
  · linarith

/-- Every dispatched command either answers with the RESET_STATS response
or leaves the minimum and maximum untouched. -/
lemma process_commands_min_max_cases (c : List Char) (s : TempState) :
    (process_temperature_commands c s).2 = Response.statsReset ∨
      ((process_temperature_commands c s).1.min_temp = s.min_temp ∧
       (process_temperature_commands c s).1.max_temp = s.max_temp) := by
  unfold process_temperature_commands
  split_ifs <;> try simp
  right
  constructor <;> split_ifs <;> rfl

/-- Unfolding of one sample event of `runEvents`. -/
lemma runEvents_sample (t : ℚ) (es : List MainLoopEvent) (s : TempState) (acc : List ℚ) :
    runEvents (.sample t :: es) (s, acc) =
      runEvents es (update_temperature_monitoring t s,
        if s.temp_monitoring_enabled then acc ++ [t] else acc) := rfl

/-- Unfolding of one command event of `runEvents`. -/
lemma runEvents_cmd (c : List Char) (es : List MainLoopEvent) (s : TempState) (acc : List ℚ) :
    runEvents (.cmd c :: es) (s, acc) =
      runEvents es ((process_temperature_commands c s).1,
        if (process_temperature_commands c s).2 = Response.statsReset then []
        else acc) := rfl

/-- The main-loop invariant: if every reading recorded since the last
reset lies between the current minimum and maximum, the same holds after
any further sequence of samples and commands. -/
lemma runEvents_min_max_inv :
    ∀ (es : List MainLoopEvent) (s : TempState) (acc : List ℚ),
      (∀ r ∈ acc, s.min_temp ≤ r ∧ r ≤ s.max_temp) →
      ∀ r ∈ (runEvents es (s, acc)).2,
        (runEvents es (s, acc)).1.min_temp ≤ r ∧
          r ≤ (runEvents es (s, acc)).1.max_temp := by
  intro es
  induction es with
  | nil => intro s acc hinv; exact hinv
  | cons e es ih =>
      intro s acc hinv
      cases e with
      | sample t =>
          rw [runEvents_sample]
          by_cases hen : s.temp_monitoring_enabled
          · rw [if_pos hen, show update_temperature_monitoring t s = record_reading t s by
              simp [update_temperature_monitoring, hen]]
            refine ih (record_reading t s) (acc ++ [t]) ?_
            intro r hr
            rcases List.mem_append.mp hr with hmem | hmem
            · obtain ⟨h1, h2⟩ := hinv r hmem
              exact ⟨le_trans (record_reading_min_le_self t s) h1,
                     le_trans h2 (record_reading_le_max_self t s)⟩
            · rw [List.mem_singleton.mp hmem]
              exact ⟨record_reading_min_le_reading t s,
                     record_reading_le_max_reading t s⟩
          · rw [if_neg hen, show update_temperature_monitoring t s = s by
              simp [update_temperature_monitoring, hen]]
            exact ih s acc hinv
      | cmd c =>
          rw [runEvents_cmd]
          by_cases hres : (process_temperature_commands c s).2 = Response.statsReset
          · rw [if_pos hres]
            refine ih _ [] ?_
            intro r hr
            exact absurd hr (List.not_mem_nil r)
          · rw [if_neg hres]
            rcases process_commands_min_max_cases c s with h | ⟨hmin, hmax⟩
            · exact absurd h hres
            · refine ih _ acc ?_
              intro r hr
              obtain ⟨h1, h2⟩ := hinv r hr
              exact ⟨by rw [hmin]; exact h1, by rw [hmax]; exact h2⟩

/-- C8: over every sequence of main-loop events (interval samples and
dispatched commands) starting from the fresh state, every reading
recorded since the last statistics reset lies between the current
`min_temp` and `max_temp`. -/
theorem C8_min_max_bound_recorded_readings :
    ∀ (es : List MainLoopEvent) (r : ℚ),
      r ∈ (runEvents es (initTempState, [])).2 →
      (runEvents es (initTempState, [])).1.min_temp ≤ r ∧
        r ≤ (runEvents es (initTempState, [])).1.max_temp := by
  intro es r hr
  exact runEvents_min_max_inv es initTempState []
    (fun x hx => absurd hx (List.not_mem_nil x)) r hr

/-- Witness for C8: a single in-interval sample of 25 from the fresh
state is recorded and bounded by the updated minimum and maximum. -/
theorem C8_min_max_bound_witness :
    (25 : ℚ) ∈ (runEvents [MainLoopEvent.sample 25] (initTempState, [])).2 ∧
    ((runEvents [MainLoopEvent.sample 25] (initTempState, [])).1.min_temp ≤ 25 ∧
      (25 : ℚ) ≤ (runEvents [MainLoopEvent.sample 25] (initTempState, [])).1.max_temp) :=
  ⟨by decide, C8_min_max_bound_recorded_readings [MainLoopEvent.sample 25] 25 (by decide)⟩

/-- A slot of the rotated window other than the last reads the old
history array. -/
lemma window_component (hist : Nat → ℚ) (idx : Nat) (t : ℚ) (i : Nat) (hi : i < 9) :
    Function.update hist idx t (((idx + 1) % 10 + i) % 10) = hist ((idx + (i + 1)) % 10) := by
  rw [Function.update_noteq (by omega)]
  exact congrArg hist (by omega)

/-- Appending to the circular history rotates the display window: the
oldest entry falls out and the new reading enters last. -/
lemma windowList_add (t : ℚ) (s : TempState) (h : s.history_index < 10) :
    windowList (add_temperature_to_history t s) = (windowList s).drop 1 ++ [t] := by
  have e : List.range 10 = [0, 1, 2, 3, 4, 5, 6, 7, 8, 9] := rfl
  simp only [windowList, add_temperature_to_history, TEMP_HISTORY_SIZE, e, List.map_cons,
    List.map_nil, List.drop_succ_cons, List.drop_nil, List.drop]
  simp only [List.cons_append, List.nil_append, List.cons.injEq, and_true]
  refine ⟨?_, ?_, ?_, ?_, ?_, ?_, ?_, ?_, ?_, ?_⟩
  · exact window_component s.temp_history s.history_index t 0 (by omega)
  · exact window_component s.temp_history s.history_index t 1 (by omega)
  · exact window_component s.temp_history s.history_index t 2 (by omega)
  · exact window_component s.temp_history s.history_index t 3 (by omega)
  · exact window_component s.temp_history s.history_index t 4 (by omega)
  · exact window_component s.temp_history s.history_index t 5 (by omega)
  · exact window_component s.temp_history s.history_index t 6 (by omega)
  · exact window_component s.temp_history s.history_index t 7 (by omega)
  · exact window_component s.temp_history s.history_index t 8 (by omega)
  · rw [show ((s.history_index + 1) % 10 + 9) % 10 = s.history_index from by omega,
      Function.update_same]

/-- Recording a reading rotates the window exactly as the raw history
append does: the statistics fields do not touch the window. -/
lemma windowList_record (t : ℚ) (s : TempState) (h : s.history_index < 10) :
    windowList (record_reading t s) = (windowList s).drop 1 ++ [t] :=
  windowList_add t
    { s with
      reading_count := (s.reading_count + 1) % 4294967296
      temperature_sum := s.temperature_sum + t
      min_temp := if t < s.min_temp then t else s.min_temp
      max_temp := if t > s.max_temp then t else s.max_temp } h

/-- The write index after a record. -/
lemma record_reading_index (t : ℚ) (s : TempState) :
    (record_reading t s).history_index = (s.history_index + 1) % 10 := rfl

/-- The display window always holds ten entries. -/
lemma windowList_length (s : TempState) : (windowList s).length = 10 := by
  simp [windowList]

/-- Unfolding of `recordAll` on a cons. -/
lemma recordAll_cons (t : ℚ) (ts : List ℚ) (s : TempState) :
    recordAll (t :: ts) s = recordAll ts (record_reading t s) := rfl

/-- After recording a reading sequence, the display window is the last
ten elements of the old window extended by the sequence. -/
lemma recordAll_window :
    ∀ (ts : List ℚ) (s : TempState), s.history_index < 10 →
      windowList (recordAll ts s) = ((windowList s) ++ ts).drop ts.length := by
  intro ts
  induction ts with
  | nil => intro s h; simp [recordAll]
  | cons t ts ih =>
      intro s h
      rw [recordAll_cons,
        ih (record_reading t s) (by rw [record_reading_index]; omega),
        windowList_record t s h]
      rw [List.append_assoc,
        ← List.drop_append_of_le_length
          (show 1 ≤ (windowList s).length by rw [windowList_length]; omega),
        List.drop_drop, List.singleton_append, List.length_cons, Nat.add_comm 1 ts.length]

/-- The reading count after recording a sequence, in uint32 arithmetic. -/
lemma recordAll_count :
    ∀ (ts : List ℚ) (s : TempState), s.reading_count < 4294967296 →
      (recordAll ts s).reading_count = (s.reading_count + ts.length) % 4294967296 := by
  intro ts
  induction ts with
  | nil => intro s h; simp [recordAll]; omega
  | cons t ts ih =>
      intro s h
      rw [recordAll_cons, ih (record_reading t s) (by rw [record_reading_count]; omega)]
      rw [record_reading_count]
      simp only [List.length_cons]
      omega

/-- A filterMap whose function always hits `some` is a map. -/
lemma filterMap_all_some {α β : Type} (l : List α) (f : α → Option β) (g : α → β)
    (h : ∀ a ∈ l, f a = some (g a)) : l.filterMap f = l.map g := by
  induction l with
  | nil => rfl
  | cons a l ih =>
      rw [List.filterMap_cons, h a (by simp), List.map_cons,
        ih (fun x hx => h x (by simp [hx]))]

/-- Once at least ten readings are counted, the HISTORY display prints
exactly the ten window slots oldest-to-newest. -/
lemma display_eq_window (s : TempState) (h : 10 ≤ s.reading_count) :
    display_temperature_history s = windowList s := by
  unfold display_temperature_history windowList
  refine filterMap_all_some _ _ _ ?_
  intro i hi
  have hi10 : i < 10 := List.mem_range.mp hi
  rw [if_pos (by omega)]
  exact congrArg some (congrArg s.temp_history (by omega))

/-- C2: after recording strictly more than ten readings from the fresh
state (fewer than 2^32, the spec assumes the uint32 count does not wrap),
the HISTORY command displays exactly the ten most recent readings, oldest
first. -/
theorem C2_history_after_more_than_capacity :
    ∀ ts : List ℚ, 10 < ts.length → ts.length < 4294967296 →
      display_temperature_history (recordAll ts initTempState) =
        ts.drop (ts.length - 10) := by
  intro ts h10 hM
  have hidx : initTempState.history_index < 10 := by norm_num [initTempState]
  have hcount : (recordAll ts initTempState).reading_count = ts.length := by
    rw [recordAll_count ts initTempState (by norm_num [initTempState])]
    have : initTempState.reading_count = 0 := rfl
    omega
  rw [display_eq_window _ (by omega), recordAll_window ts initTempState hidx]
  nth_rewrite 1 [show ts.length = (windowList initTempState).length + (ts.length - 10) by
    rw [windowList_length]; omega]
  rw [List.drop_append]

/-- Witness for C2 with thirteen concrete readings: the display holds the
last ten, oldest first. -/
theorem C2_history_witness :
    10 < ([1, 2, 3, 4, 5, 6, 7, 8, 9, 10, 11, 12, 13] : List ℚ).length ∧
    display_temperature_history
        (recordAll [1, 2, 3, 4, 5, 6, 7, 8, 9, 10, 11, 12, 13] initTempState) =
      [4, 5, 6, 7, 8, 9, 10, 11, 12, 13] :=
  ⟨by decide,
   by
    rw [C2_history_after_more_than_capacity
      [1, 2, 3, 4, 5, 6, 7, 8, 9, 10, 11, 12, 13] (by decide) (by decide)]
    decide⟩

/-- C1: with three readings recorded after startup, `HISTORY` prints the
contents of slots 3, 4 and 5, which have never been written (they still
hold the zero-initialized values), instead of the three recorded readings
20, 21, 22 oldest first.  This refutes the claim that only written slots
are displayed for every `0 < count`. -/
theorem C1_history_shows_unwritten_slots_when_count_lt_capacity :
    display_temperature_history (recordAll [20, 21, 22] initTempState) = [0, 0, 0] ∧
      [(20 : ℚ), 21, 22] ≠ [0, 0, 0] := by
  decide

/-- C4: an INTERVAL argument that fails numeric parsing (`INTERVAL abc`,
which `atoi` converts to 0) or is out of bounds (`INTERVAL 99999`) leaves
the state unchanged and emits the invalid-interval error, while
`INTERVAL 1000` sets the interval to 1000, acknowledges it, and every
subsequent STATS report that prints an interval prints 1000. -/
theorem C4_interval_error_handling :
    ∀ s : TempState,
      process_temperature_commands
        ['I', 'N', 'T', 'E', 'R', 'V', 'A', 'L', ' ', 'a', 'b', 'c'] s =
        (s, Response.intervalInvalid) ∧
      process_temperature_commands
        ['I', 'N', 'T', 'E', 'R', 'V', 'A', 'L', ' ', '9', '9', '9', '9', '9'] s =
        (s, Response.intervalInvalid) ∧
      (process_temperature_commands
        ['I', 'N', 'T', 'E', 'R', 'V', 'A', 'L', ' ', '1', '0', '0', '0'] s).1 =
        { s with report_interval_ms := 1000 } ∧
      (process_temperature_commands
        ['I', 'N', 'T', 'E', 'R', 'V', 'A', 'L', ' ', '1', '0', '0', '0'] s).2 =
        Response.intervalSet 1000 ∧
      (display_temperature_stats
          (process_temperature_commands
            ['I', 'N', 'T', 'E', 'R', 'V', 'A', 'L', ' ', '1', '0', '0', '0'] s).1).map
        StatsReport.interval =
        (if s.reading_count = 0 then none else some 1000) := by
  intro s
  refine ⟨rfl, rfl, rfl, rfl, ?_⟩
  show (display_temperature_stats { s with report_interval_ms := 1000 }).map
      StatsReport.interval = _
  unfold display_temperature_stats
  by_cases h : s.reading_count = 0 <;> simp [h]

/-- C5: each of the BOOTSEL, RESET_BOOTSEL and RESET commands is routed to
a runtime_update.c handler whose effect trace flushes stdio before any
irreversible reset primitive (`rom_reset_usb_boot` or `watchdog_enable`),
actually issues such a primitive, and never returns to command
processing. -/
theorem C5_reset_commands_flush_then_diverge :
    ∀ s : TempState,
      (process_temperature_commands ['B', 'O', 'O', 'T', 'S', 'E', 'L'] s =
          (s, Response.runtime runtime_enter_bootsel) ∧
        runtime_enter_bootsel.returns = false ∧
        flushedBeforeCommits false runtime_enter_bootsel.trace = true ∧
        runtime_enter_bootsel.trace.any isCommitAction = true) ∧
      (process_temperature_commands
          ['R', 'E', 'S', 'E', 'T', '_', 'B', 'O', 'O', 'T', 'S', 'E', 'L'] s =
          (s, Response.runtime runtime_reset_to_bootsel) ∧
        runtime_reset_to_bootsel.returns = false ∧
        flushedBeforeCommits false runtime_reset_to_bootsel.trace = true ∧
        runtime_reset_to_bootsel.trace.any isCommitAction = true) ∧
      (process_temperature_commands ['R', 'E', 'S', 'E', 'T'] s =
          (s, Response.runtime runtime_soft_reset) ∧
        runtime_soft_reset.returns = false ∧
        flushedBeforeCommits false runtime_soft_reset.trace = true ∧
        runtime_soft_reset.trace.any isCommitAction = true) := by
  intro s
  exact ⟨⟨rfl, rfl, by decide, by decide⟩,
         ⟨rfl, rfl, by decide, by decide⟩,
         ⟨rfl, rfl, by decide, by decide⟩⟩

/-- C9: RESET_STATS zeroes the count and the sum, restores the min/max
sentinels 1000 and -1000, rewinds the history index, and leaves the state
in the guarded branch of STATS; moreover every state with zero readings
takes the guarded no-readings branch, so the mean is never formed with a
zero divisor. -/
theorem C9_reset_stats_guarded_mean :
    (∀ s : TempState,
      (process_temperature_commands
          ['R', 'E', 'S', 'E', 'T', '_', 'S', 'T', 'A', 'T', 'S'] s).1.reading_count = 0 ∧
      (process_temperature_commands
          ['R', 'E', 'S', 'E', 'T', '_', 'S', 'T', 'A', 'T', 'S'] s).1.temperature_sum = 0 ∧
      (process_temperature_commands
          ['R', 'E', 'S', 'E', 'T', '_', 'S', 'T', 'A', 'T', 'S'] s).1.min_temp = 1000 ∧
      (process_temperature_commands
          ['R', 'E', 'S', 'E', 'T', '_', 'S', 'T', 'A', 'T', 'S'] s).1.max_temp = -1000 ∧
      (process_temperature_commands
          ['R', 'E', 'S', 'E', 'T', '_', 'S', 'T', 'A', 'T', 'S'] s).1.history_index = 0 ∧
      display_temperature_stats
        (process_temperature_commands
          ['R', 'E', 'S', 'E', 'T', '_', 'S', 'T', 'A', 'T', 'S'] s).1 = none) ∧
    (∀ s : TempState, s.reading_count = 0 → display_temperature_stats s = none) := by
  constructor
  · intro s
    exact ⟨rfl, rfl, rfl, rfl, rfl, rfl⟩
  · intro s h
    simp [display_temperature_stats, h]

/-- Witness for C9 at the initial state, whose reading count is zero. -/
theorem C9_reset_stats_guarded_mean_witness :
    initTempState.reading_count = 0 ∧ display_temperature_stats initTempState = none :=
  ⟨rfl, C9_reset_stats_guarded_mean.2 initTempState rfl⟩

/-- A digit byte is neither whitespace nor a sign character. -/
lemma digitByte_not_space_not_sign {c : Char} (h : isDigitByte c = true) :
    isSpaceByte c = false ∧ c ≠ '-' ∧ c ≠ '+' := by
  have hc : 48 ≤ c.toNat ∧ c.toNat ≤ 57 := by simpa [isDigitByte] using h
  have hne : ∀ d : Char, c.toNat ≠ d.toNat → c ≠ d := fun d hn e => hn (by rw [e])
  have h32 : c ≠ ' ' := hne ' ' (by
    have e : (' ').toNat = 32 := by decide
    omega)
  have h9 : c ≠ '\t' := hne '\t' (by
    have e : ('\t').toNat = 9 := by decide
    omega)
  have h10 : c ≠ '\n' := hne '\n' (by
    have e : ('\n').toNat = 10 := by decide
    omega)
  have h11 : c ≠ '\x0b' := hne '\x0b' (by
    have e : ('\x0b').toNat = 11 := by decide
    omega)
  have h12 : c ≠ '\x0c' := hne '\x0c' (by
    have e : ('\x0c').toNat = 12 := by decide
    omega)
  have h13 : c ≠ '\r' := hne '\r' (by
    have e : ('\r').toNat = 13 := by decide
    omega)
  have h45 : c ≠ '-' := hne '-' (by
    have e : ('-').toNat = 45 := by decide
    omega)
  have h43 : c ≠ '+' := hne '+' (by
    have e : ('+').toNat = 43 := by decide
    omega)
  exact ⟨by simp [isSpaceByte, h32, h9, h10, h11, h12, h13], h45, h43⟩

/-- Folding most-significant-first digits into an accumulator computes the
accumulator shifted by the digit count plus the little-endian value of the
reversed digit list. -/
lemma foldl_base10 (vs : List Nat) :
    ∀ a : Nat, vs.foldl (fun x v => 10 * x + v) a =
      a * 10 ^ vs.length + Nat.ofDigits 10 vs.reverse := by
  induction vs with
  | nil => intro a; simp [Nat.ofDigits]
  | cons v tl ih =>
      intro a
      have happ : Nat.ofDigits 10 (tl.reverse ++ [v]) =
          Nat.ofDigits 10 tl.reverse + 10 ^ tl.reverse.length * Nat.ofDigits 10 [v] := by
        exact_mod_cast Nat.ofDigits_append
      have hsing : Nat.ofDigits 10 [v] = v := by
        simp [Nat.ofDigits]
      simp only [List.foldl_cons, List.reverse_cons, List.length_cons, ih, happ, hsing,
        List.length_reverse]
      ring

/-- On a nonempty all-digit string, `digitsVal` computes the decimal value
of the digit sequence, expressed through Mathlib positional semantics. -/
lemma digitsVal_eq_ofDigits (ds : List Char) (h : ∀ c ∈ ds, isDigitByte c = true) :
    digitsVal ds = Nat.ofDigits 10 ((ds.map (fun c => c.toNat - 48)).reverse) := by
  unfold digitsVal
  rw [List.takeWhile_eq_self_iff.mpr h]
  have hfold : ds.foldl (fun a c => 10 * a + (c.toNat - 48)) 0 =
      (ds.map (fun c => c.toNat - 48)).foldl (fun x v => 10 * x + v) 0 := by
    rw [List.foldl_map]
  rw [hfold, foldl_base10]
  simp

/-- On a nonempty all-digit string, `atoi` takes no-whitespace, no-sign
path and returns `digitsVal`. -/
lemma atoi_on_digits (ds : List Char) (hne : ds ≠ [])
    (h : ∀ c ∈ ds, isDigitByte c = true) : atoi ds = (digitsVal ds : Int) := by
  cases ds with
  | nil => exact absurd rfl hne
  | cons c rest =>
      have hc := h c (by simp)
      obtain ⟨hsp, hminus, hplus⟩ := digitByte_not_space_not_sign hc
      unfold atoi
      rw [List.dropWhile_cons, hsp]
      simp [hminus, hplus]

example : atoi ['5', '0', '0'] = 500 := by decide

/-- Reduction of the dispatcher on a command of the shape
`INTERVAL <arg>` with a nonempty argument after the space: only the
INTERVAL branch fires and the argument is parsed and bounds-checked. -/
lemma process_interval_arg (rest : List Char) (s : TempState) (hne : rest ≠ []) :
    process_temperature_commands
        (['I', 'N', 'T', 'E', 'R', 'V', 'A', 'L', ' '] ++ rest) s =
      (if 500 ≤ toUInt32Nat (atoi rest) ∧ toUInt32Nat (atoi rest) ≤ 60000 then
        ({ s with report_interval_ms := toUInt32Nat (atoi rest) },
         Response.intervalSet (toUInt32Nat (atoi rest)))
      else (s, Response.intervalInvalid)) := by
  have h1 : List.isPrefixOf ['T', 'E', 'M', 'P']
      (['I', 'N', 'T', 'E', 'R', 'V', 'A', 'L', ' '] ++ rest) = false := by
    simp [List.isPrefixOf]
  have h2 : List.isPrefixOf ['S', 'T', 'A', 'T', 'S']
      (['I', 'N', 'T', 'E', 'R', 'V', 'A', 'L', ' '] ++ rest) = false := by
    simp [List.isPrefixOf]
  have h3 : List.isPrefixOf ['H', 'I', 'S', 'T', 'O', 'R', 'Y']
      (['I', 'N', 'T', 'E', 'R', 'V', 'A', 'L', ' '] ++ rest) = false := by
    simp [List.isPrefixOf]
  have h4 : List.isPrefixOf ['S', 'T', 'A', 'R', 'T', '_', 'T', 'E', 'M', 'P']
      (['I', 'N', 'T', 'E', 'R', 'V', 'A', 'L', ' '] ++ rest) = false := by
    simp [List.isPrefixOf]
  have h5 : List.isPrefixOf ['S', 'T', 'O', 'P', '_', 'T', 'E', 'M', 'P']
      (['I', 'N', 'T', 'E', 'R', 'V', 'A', 'L', ' '] ++ rest) = false := by
    simp [List.isPrefixOf]
  have h6 : List.isPrefixOf ['R', 'E', 'S', 'E', 'T', '_', 'S', 'T', 'A', 'T', 'S']
      (['I', 'N', 'T', 'E', 'R', 'V', 'A', 'L', ' '] ++ rest) = false := by
    simp [List.isPrefixOf]
  have h7 : List.isPrefixOf ['I', 'N', 'T', 'E', 'R', 'V', 'A', 'L']
      (['I', 'N', 'T', 'E', 'R', 'V', 'A', 'L', ' '] ++ rest) = true := by
    simp [List.isPrefixOf]
  have h0 : 0 < rest.length := List.length_pos.mpr hne
  have hlen : (['I', 'N', 'T', 'E', 'R', 'V', 'A', 'L', ' '] ++ rest).length > 9 := by
    simp
    omega
  have hdrop : (['I', 'N', 'T', 'E', 'R', 'V', 'A', 'L', ' '] ++ rest).drop 9 = rest := rfl
  unfold process_temperature_commands
  rw [h1, h2, h3, h4, h5, h6, h7, hdrop]
  simp only [if_false, if_true, Bool.false_eq_true, if_pos hlen]

/-- C3 amended: the accepted closed bound of `INTERVAL` is [500, 60000],
not [1, 60000]: for every nonempty decimal argument whose value n
satisfies 500 <= n <= 60000 the command is accepted, the report interval
becomes n and the acknowledgment is emitted. -/
theorem C3_amended_interval_accepts_500_to_60000 :
    ∀ (ds : List Char) (n : Nat) (s : TempState),
      ds ≠ [] →
      (∀ c ∈ ds, isDigitByte c = true) →
      Nat.ofDigits 10 ((ds.map (fun c => c.toNat - 48)).reverse) = n →
      500 ≤ n → n ≤ 60000 →
      process_temperature_commands (['I', 'N', 'T', 'E', 'R', 'V', 'A', 'L', ' '] ++ ds) s =
        ({ s with report_interval_ms := n }, Response.intervalSet n) := by
  intro ds n s hne hdig hval h500 h60000
  have hv : digitsVal ds = n := by
    rw [digitsVal_eq_ofDigits ds hdig, hval]
  have hatoi : atoi ds = (n : Int) := by
    rw [atoi_on_digits ds hne hdig, hv]
  have hu : toUInt32Nat (atoi ds) = n := by
    rw [hatoi]
    unfold toUInt32Nat
    omega
  rw [process_interval_arg ds s hne, hu, if_pos ⟨h500, h60000⟩]

/-- Witness for the amended C3 at the concrete command `INTERVAL 1000`
fed to the initial state. -/
theorem C3_amended_interval_witness :
    (['1', '0', '0', '0'] : List Char) ≠ [] ∧
    process_temperature_commands
        ['I', 'N', 'T', 'E', 'R', 'V', 'A', 'L', ' ', '1', '0', '0', '0'] initTempState =
      ({ initTempState with report_interval_ms := 1000 }, Response.intervalSet 1000) :=
  ⟨by decide,
   C3_amended_interval_accepts_500_to_60000 ['1', '0', '0', '0'] 1000 initTempState
     (by decide) (by decide) (by decide) (by decide) (by decide)⟩

/-- C3 counterexample: `INTERVAL 1` has its argument inside the claimed
closed bound [1, 60000], yet the dispatcher rejects it with the
invalid-interval error and the report interval keeps its prior value of
2000 ms: the accepted range of the code is [500, 60000]. -/
theorem C3_counterexample_interval_one_rejected :
    (1 : Nat) ≥ 1 ∧ (1 : Nat) ≤ 60000 ∧
    (process_temperature_commands
        ['I', 'N', 'T', 'E', 'R', 'V', 'A', 'L', ' ', '1'] initTempState).2 =
      Response.intervalInvalid ∧
    (process_temperature_commands
        ['I', 'N', 'T', 'E', 'R', 'V', 'A', 'L', ' ', '1'] initTempState).1.report_interval_ms =
      DEFAULT_REPORT_INTERVAL_MS := by
  decide
